import Mathlib

/-!
Shallow embedding of the dead-ringer example fixture generator
(examples/generate.py): five pattern builders producing pairs of byte
sequences, a writer run in a fixed order, and an abstract model of the
process-wide seeded pseudorandom source.
-/

set_option maxRecDepth 100000

namespace DeadRinger

/-- Model of the process-wide random source (Python `random`, seeded once):
an abstract stream of raw draws together with a cursor recording how many
draws have been consumed. A fixed seed determines a fixed stream, so the
stream function is the whole state relevant to reproducibility. -/
structure Rng where
  stream : Nat → Nat
  pos : Nat

/-- Model of `random.randint(lo, hi)`: one uniform draw in the inclusive
range [lo, hi], consuming one raw stream value. -/
def randint (lo hi : Nat) (g : Rng) : Nat × Rng :=
  (lo + g.stream g.pos % (hi - lo + 1), ⟨g.stream, g.pos + 1⟩)

/-- Model of `bytes(random.randint(0, 255) for _ in range(n))`:
n sequential byte draws threading the random source. -/
def drawBytes : Nat → Rng → List Nat × Rng
  | 0, g => ([], g)
  | n + 1, g =>
    let p := randint 0 255 g
    let q := drawBytes n p.2
    (p.1 :: q.1, q.2)

/-- Model of the core of `random.sample(range n, k)`: draw k elements
without replacement by repeatedly picking one position of the remaining
pool (one raw draw each) and removing it. -/
def sampleAux : Nat → List Nat → Rng → List Nat × Rng
  | 0, _, g => ([], g)
  | k + 1, pool, g =>
    let j := g.stream g.pos % pool.length
    let q := sampleAux k (pool.eraseIdx j) ⟨g.stream, g.pos + 1⟩
    (pool.getD j 0 :: q.1, q.2)

/-- Model of `sorted(random.sample(range(n), k))`: k distinct positions
from [0, n), in ascending order. -/
def sampleSorted (n k : Nat) (g : Rng) : List Nat × Rng :=
  let q := sampleAux k (List.range n) g
  (q.1.insertionSort (· ≤ ·), q.2)

/-- `generate_simple_pair`: base = bytes(range(64)); modified = copy with
positions 0, 15, 31, 47, 63 overwritten by the sentinels
0xFF, 0xAA, 0xBB, 0xCC, 0xDD. -/
def generate_simple_pair : List Nat × List Nat :=
  let base := List.range 64
  let modified :=
    ((((base.set 0 0xFF).set 15 0xAA).set 31 0xBB).set 47 0xCC).set 63 0xDD
  (base, modified)

/-- magic_v1 = b"\x7fELF" -/
def magic_v1 : List Nat := [0x7F, 0x45, 0x4C, 0x46]

/-- magic_v2 = b"\x7fOLF" -/
def magic_v2 : List Nat := [0x7F, 0x4F, 0x4C, 0x46]

/-- version_v1 = struct.pack("<H", 1): little-endian 16-bit 1. -/
def version_v1 : List Nat := [1, 0]

/-- version_v2 = struct.pack("<H", 2): little-endian 16-bit 2. -/
def version_v2 : List Nat := [2, 0]

/-- `generate_header_pair`: 4-byte magic, 2-byte little-endian version,
then a 120-byte random body shared byte-for-byte by both outputs. -/
def generate_header_pair (g : Rng) : (List Nat × List Nat) × Rng :=
  let b := drawBytes 120 g
  ((magic_v1 ++ version_v1 ++ b.1, magic_v2 ++ version_v2 ++ b.1), b.2)

/-- The update loop of `generate_firmware_pair`: for each selected index i,
v2[i] = (v1[i] + randint(1, 255)) & 0xFF, reading from the original v1. -/
def applyDeltas (v1 : List Nat) : List Nat → List Nat → Rng → List Nat × Rng
  | [], v2, g => (v2, g)
  | i :: rest, v2, g =>
    let p := randint 1 255 g
    applyDeltas v1 rest (v2.set i ((v1.getD i 0 + p.1) % 256)) p.2

/-- `generate_firmware_pair`: v1 is 512 random bytes; v2 starts as a copy
and gets a nonzero delta (mod 256) at each of 80 sampled positions. -/
def generate_firmware_pair (g : Rng) : (List Nat × List Nat) × Rng :=
  let b := drawBytes 512 g
  let s := sampleSorted 512 80 b.2
  let a := applyDeltas b.1 s.1 b.1 s.2
  ((b.1, a.1), a.2)

/-- The 80 sampled positions used by `generate_firmware_pair` on a given
random-source state (the same draws the generator itself performs). -/
def firmwareIndices (g : Rng) : List Nat :=
  (sampleSorted 512 80 (drawBytes 512 g).2).1

/-- The fixed four-line pangram block of `generate_text_pair`, as bytes
(all characters are ASCII, one byte per character). -/
def textOriginal : List Nat :=
  ("The quick brown fox jumps over the lazy dog.\n" ++
   "Pack my box with five dozen liquor jugs.\n" ++
   "How vexingly quick daft zebras jump!\n" ++
   "The five boxing wizards jump quickly.\n").data.map Char.toNat

/-- `generate_text_pair`: the original block and a copy with the five fixed
offsets 4, 10, 35, 80, 120 overwritten by Q, B, L, Z, exclamation mark. -/
def generate_text_pair : List Nat × List Nat :=
  let modified :=
    ((((textOriginal.set 4 (Char.toNat 'Q')).set 10 (Char.toNat 'B')).set
        35 (Char.toNat 'L')).set 80 (Char.toNat 'Z')).set 120 (Char.toNat '!')
  (textOriginal, modified)

/-- `generate_identical_pair`: data = bytes(range(256)), written twice. -/
def generate_identical_pair : List Nat × List Nat :=
  let data := List.range 256
  (data, data)

/-- The full run of the entry point: the ten (name, content) records passed
to `write_bin`, in the order the builders are invoked. The random source is
seeded once at startup; `s` is the raw draw stream that seeding determines.
Only the header and firmware builders consume draws, in that order. -/
def generateAll (s : Nat → Nat) : List (String × List Nat) :=
  let g0 : Rng := ⟨s, 0⟩
  let hp := generate_header_pair g0
  let fp := generate_firmware_pair hp.2
  [("simple_v1.bin", generate_simple_pair.1),
   ("simple_v2.bin", generate_simple_pair.2),
   ("header_original.bin", hp.1.1),
   ("header_modified.bin", hp.1.2),
   ("firmware_v1.bin", fp.1.1),
   ("firmware_v2.bin", fp.1.2),
   ("text_original.bin", generate_text_pair.1),
   ("text_modified.bin", generate_text_pair.2),
   ("identical_a.bin", generate_identical_pair.1),
   ("identical_b.bin", generate_identical_pair.2)]

/-- Model of the sequential write loop with `write_bin` raising an I/O
error on names the filesystem rejects (`ok` says which writes succeed):
writes happen in order; the first failure aborts the run, returning the
files written so far and a diagnostic naming the failing file. -/
def runWrites (ok : String → Bool) : List (String × List Nat) → List (String × List Nat) × Option String
  | [] => ([], none)
  | w :: rest =>
    if ok w.1 then
      let r := runWrites ok rest
      (w :: r.1, r.2)
    else ([], some w.1)

theorem randint_fst_le (lo hi : Nat) (g : Rng) (h : lo ≤ hi) :
    lo ≤ (randint lo hi g).1 ∧ (randint lo hi g).1 ≤ hi := by
  have hm := Nat.mod_lt (g.stream g.pos) (show 0 < hi - lo + 1 by omega)
  simp only [randint]
  omega

theorem drawBytes_length (n : Nat) (g : Rng) : (drawBytes n g).1.length = n := by
  induction n generalizing g with
  | zero => rfl
  | succ n ih => simp [drawBytes, ih]

theorem drawBytes_lt (n : Nat) (g : Rng) : ∀ x ∈ (drawBytes n g).1, x < 256 := by
  induction n generalizing g with
  | zero => intro x hx; simp [drawBytes] at hx
  | succ n ih =>
    intro x hx
    simp only [drawBytes, List.mem_cons] at hx
    rcases hx with rfl | hx
    · have := (randint_fst_le 0 255 g (by omega)).2
      omega
    · exact ih _ x hx

/-- C4: the simple-scatter builder produces a base sequence of 64 bytes with
base[i] = i for all i below 64, and a modified sequence of the same length
that differs from the base at exactly positions 0, 15, 31, 47, 63, holding
0xFF, 0xAA, 0xBB, 0xCC, 0xDD there, and equals the base elsewhere. -/
theorem simple_scatter_spec :
    generate_simple_pair.1 = List.range 64 ∧
    generate_simple_pair.2.length = 64 ∧
    (List.range 64).filter
        (fun i => generate_simple_pair.1.getD i 0 != generate_simple_pair.2.getD i 0) =
      [0, 15, 31, 47, 63] ∧
    generate_simple_pair.2.getD 0 0 = 0xFF ∧
    generate_simple_pair.2.getD 15 0 = 0xAA ∧
    generate_simple_pair.2.getD 31 0 = 0xBB ∧
    generate_simple_pair.2.getD 47 0 = 0xCC ∧
    generate_simple_pair.2.getD 63 0 = 0xDD := by
  decide

/-- C9: the identical-pair builder produces two sequences of 256 bytes
holding 0..255 in order, equal at every position. -/
theorem identical_pair_spec :
    generate_identical_pair.1 = List.range 256 ∧
    generate_identical_pair.2 = generate_identical_pair.1 ∧
    generate_identical_pair.1.length = 256 := by
  decide

/-- C7: the text-substitution builder produces two sequences of identical
length, differing at exactly the byte offsets 4, 10, 35, 80, 120. -/
theorem text_substitution_spec :
    generate_text_pair.1.length = generate_text_pair.2.length ∧
    (List.range generate_text_pair.1.length).filter
        (fun i => generate_text_pair.1.getD i 0 != generate_text_pair.2.getD i 0) =
      [4, 10, 35, 80, 120] := by
  decide

/-- C10: both text-substitution outputs are exactly 161 bytes long
(lines of 45, 41, 37 and 38 bytes including the newlines). -/
theorem text_length_spec :
    generate_text_pair.1.length = 161 ∧
    generate_text_pair.2.length = 161 ∧
    (("The quick brown fox jumps over the lazy dog.\n").length = 45 ∧
     ("Pack my box with five dozen liquor jugs.\n").length = 41 ∧
     ("How vexingly quick daft zebras jump!\n").length = 37 ∧
     ("The five boxing wizards jump quickly.\n").length = 38) := by
  decide

theorem getD_not_mem_eraseIdx (pool : List Nat) (j : Nat) (hj : j < pool.length)
    (hnd : pool.Nodup) : pool.getD j 0 ∉ pool.eraseIdx j := by
  intro hmem
  rw [List.mem_eraseIdx_iff_getElem] at hmem
  obtain ⟨i, hi, hij, hEq⟩ := hmem
  rw [List.getD_eq_getElem _ _ hj] at hEq
  exact hij (hnd.getElem_inj_iff.mp hEq)

theorem sampleAux_mem (k : Nat) (pool : List Nat) (g : Rng) (hk : k ≤ pool.length) :
    ∀ x ∈ (sampleAux k pool g).1, x ∈ pool := by
  induction k generalizing pool g with
  | zero => intro x hx; simp [sampleAux] at hx
  | succ k ih =>
    intro x hx
    have hpos : 0 < pool.length := by omega
    have hj : g.stream g.pos % pool.length < pool.length := Nat.mod_lt _ hpos
    have hlen : k ≤ (pool.eraseIdx (g.stream g.pos % pool.length)).length := by
      rw [List.length_eraseIdx_of_lt hj]; omega
    simp only [sampleAux, List.mem_cons] at hx
    rcases hx with rfl | hx
    · rw [List.getD_eq_getElem _ _ hj]; exact List.getElem_mem hj
    · exact (List.eraseIdx_sublist pool _).subset (ih _ _ hlen x hx)

theorem sampleAux_nodup (k : Nat) (pool : List Nat) (g : Rng) (hk : k ≤ pool.length)
    (hnd : pool.Nodup) : (sampleAux k pool g).1.Nodup := by
  induction k generalizing pool g with
  | zero => simp [sampleAux]
  | succ k ih =>
    have hpos : 0 < pool.length := by omega
    have hj : g.stream g.pos % pool.length < pool.length := Nat.mod_lt _ hpos
    have hlen : k ≤ (pool.eraseIdx (g.stream g.pos % pool.length)).length := by
      rw [List.length_eraseIdx_of_lt hj]; omega
    have hnd2 : (pool.eraseIdx (g.stream g.pos % pool.length)).Nodup :=
      (List.eraseIdx_sublist pool _).nodup hnd
    simp only [sampleAux, List.nodup_cons]
    exact ⟨fun hmem => getD_not_mem_eraseIdx pool _ hj hnd
        (sampleAux_mem k _ _ hlen _ hmem),
      ih _ _ hlen hnd2⟩

theorem sampleAux_length (k : Nat) (pool : List Nat) (g : Rng) (hk : k ≤ pool.length) :
    (sampleAux k pool g).1.length = k := by
  induction k generalizing pool g with
  | zero => rfl
  | succ k ih =>
    have hpos : 0 < pool.length := by omega
    have hj : g.stream g.pos % pool.length < pool.length := Nat.mod_lt _ hpos
    have hlen : k ≤ (pool.eraseIdx (g.stream g.pos % pool.length)).length := by
      rw [List.length_eraseIdx_of_lt hj]; omega
    simp only [sampleAux, List.length_cons]
    rw [ih _ _ hlen]

theorem sampleSorted_spec (n k : Nat) (g : Rng) (hk : k ≤ n) :
    (sampleSorted n k g).1.length = k ∧ (sampleSorted n k g).1.Nodup ∧
      ∀ x ∈ (sampleSorted n k g).1, x < n := by
  have hk2 : k ≤ (List.range n).length := by simpa using hk
  have hperm := List.perm_insertionSort (fun a b : Nat => a ≤ b)
    (sampleAux k (List.range n) g).1
  simp only [sampleSorted]
  refine ⟨hperm.length_eq.trans (sampleAux_length k _ g hk2), ?_, ?_⟩
  · exact hperm.nodup_iff.mpr (sampleAux_nodup k _ g hk2 (List.nodup_range n))
  · intro x hx
    have := sampleAux_mem k (List.range n) g hk2 x (hperm.mem_iff.mp hx)
    exact List.mem_range.mp this

theorem applyDeltas_length (v1 l : List Nat) : ∀ (v2 : List Nat) (g : Rng),
    (applyDeltas v1 l v2 g).1.length = v2.length := by
  induction l with
  | nil => intro v2 g; rfl
  | cons i rest ih =>
    intro v2 g
    simp only [applyDeltas]
    rw [ih]
    simp

theorem applyDeltas_getD_of_not_mem (v1 l : List Nat) : ∀ (v2 : List Nat) (g : Rng)
    (j : Nat), j ∉ l → (applyDeltas v1 l v2 g).1.getD j 0 = v2.getD j 0 := by
  induction l with
  | nil => intro v2 g j _; rfl
  | cons i rest ih =>
    intro v2 g j hj
    have hji : j ≠ i := fun h => hj (h ▸ List.mem_cons_self i rest)
    have hj2 : j ∉ rest := fun h => hj (List.mem_cons_of_mem _ h)
    simp only [applyDeltas]
    rw [ih _ _ _ hj2]
    simp [List.getElem?_set_ne (Ne.symm hji)]

theorem applyDeltas_getD_of_mem (v1 l : List Nat) : ∀ (v2 : List Nat) (g : Rng)
    (j : Nat), l.Nodup → j ∈ l → j < v2.length →
    ∃ d, 1 ≤ d ∧ d ≤ 255 ∧
      (applyDeltas v1 l v2 g).1.getD j 0 = (v1.getD j 0 + d) % 256 := by
  induction l with
  | nil => intro v2 g j _ hj _; cases hj
  | cons i rest ih =>
    intro v2 g j hnd hj hlen
    rcases List.mem_cons.mp hj with rfl | hmem
    · have hnotin : j ∉ rest := (List.nodup_cons.mp hnd).1
      refine ⟨(randint 1 255 g).1, (randint_fst_le 1 255 g (by omega)).1,
        (randint_fst_le 1 255 g (by omega)).2, ?_⟩
      simp only [applyDeltas]
      rw [applyDeltas_getD_of_not_mem _ _ _ _ _ hnotin]
      simp [List.getElem?_set_self hlen]
    · simp only [applyDeltas]
      exact ih _ _ j (List.nodup_cons.mp hnd).2 hmem (by simpa using hlen)

/-- C2: the dense-random (firmware) builder produces two sequences of 512
bytes; the 80 sampled positions are distinct and below 512; at every
sampled position the two sequences differ and the difference mod 256 lies
in [1, 255]; at every non-sampled position the bytes are equal. -/
theorem dense_random_spec (g : Rng) :
    (generate_firmware_pair g).1.1.length = 512 ∧
    (generate_firmware_pair g).1.2.length = 512 ∧
    (firmwareIndices g).length = 80 ∧
    (firmwareIndices g).Nodup ∧
    (∀ i ∈ firmwareIndices g, i < 512) ∧
    (∀ i ∈ firmwareIndices g,
      (generate_firmware_pair g).1.2.getD i 0 ≠ (generate_firmware_pair g).1.1.getD i 0 ∧
      1 ≤ (((generate_firmware_pair g).1.2.getD i 0 : Int) -
            ((generate_firmware_pair g).1.1.getD i 0 : Int)) % 256 ∧
      (((generate_firmware_pair g).1.2.getD i 0 : Int) -
        ((generate_firmware_pair g).1.1.getD i 0 : Int)) % 256 ≤ 255) ∧
    (∀ i, i ∉ firmwareIndices g →
      (generate_firmware_pair g).1.2.getD i 0 = (generate_firmware_pair g).1.1.getD i 0) := by
  have hv1len : (drawBytes 512 g).1.length = 512 := drawBytes_length 512 g
  have hidx := sampleSorted_spec 512 80 (drawBytes 512 g).2 (by omega)
  simp only [generate_firmware_pair, firmwareIndices] at *
  refine ⟨hv1len, ?_, hidx.1, hidx.2.1, hidx.2.2, ?_, ?_⟩
  · rw [applyDeltas_length]; exact hv1len
  · intro i hi
    have hilt : i < 512 := hidx.2.2 i hi
    obtain ⟨d, hd1, hd2, hd3⟩ := applyDeltas_getD_of_mem (drawBytes 512 g).1
      (sampleSorted 512 80 (drawBytes 512 g).2).1 (drawBytes 512 g).1
      (sampleSorted 512 80 (drawBytes 512 g).2).2 i
      hidx.2.1 hi (by omega)
    have hb : (drawBytes 512 g).1.getD i 0 < 256 := by
      rw [List.getD_eq_getElem _ _ (by omega)]
      exact drawBytes_lt 512 g _ (List.getElem_mem (by omega))
    refine ⟨by omega, by omega, by omega⟩
  · intro i hi
    exact applyDeltas_getD_of_not_mem _ _ _ _ i hi

/-- Witness for C2 at a concrete random-source state: position 0 is sampled
there and the two firmware images differ at it, while position 511 is not
sampled and the images agree at it. -/
theorem dense_random_spec_witness :
    (generate_firmware_pair ⟨fun _ => 0, 0⟩).1.2.getD 0 0 ≠
      (generate_firmware_pair ⟨fun _ => 0, 0⟩).1.1.getD 0 0 ∧
    (generate_firmware_pair ⟨fun _ => 0, 0⟩).1.2.getD 511 0 =
      (generate_firmware_pair ⟨fun _ => 0, 0⟩).1.1.getD 511 0 :=
  ⟨((dense_random_spec ⟨fun _ => 0, 0⟩).2.2.2.2.2.1 0 (by decide)).1,
   (dense_random_spec ⟨fun _ => 0, 0⟩).2.2.2.2.2.2 511 (by decide)⟩

/-- C3: the header-mutation builder produces two sequences of exactly 126
bytes (4-byte magic, 2-byte little-endian version, 120-byte shared body),
identical from byte offset 6 onward; within bytes 0-3 they differ exactly
at position 1 (the altered magic byte); bytes 4-5 decode as little-endian
1 in the original and 2 in the modified sequence. -/
theorem header_mutation_spec (g : Rng) :
    (generate_header_pair g).1.1.length = 126 ∧
    (generate_header_pair g).1.2.length = 126 ∧
    (∀ i, 6 ≤ i →
      (generate_header_pair g).1.1.getD i 0 = (generate_header_pair g).1.2.getD i 0) ∧
    (generate_header_pair g).1.1.getD 1 0 ≠ (generate_header_pair g).1.2.getD 1 0 ∧
    (∀ i, i < 4 → i ≠ 1 →
      (generate_header_pair g).1.1.getD i 0 = (generate_header_pair g).1.2.getD i 0) ∧
    (generate_header_pair g).1.1.getD 4 0 + 256 * (generate_header_pair g).1.1.getD 5 0 = 1 ∧
    (generate_header_pair g).1.2.getD 4 0 + 256 * (generate_header_pair g).1.2.getD 5 0 = 2 := by
  refine ⟨?_, ?_, ?_, ?_, ?_, ?_, ?_⟩
  · simp [generate_header_pair, magic_v1, version_v1, drawBytes_length]
  · simp [generate_header_pair, magic_v2, version_v2, drawBytes_length]
  · intro i hi
    rcases Nat.exists_eq_add_of_le hi with ⟨j, rfl⟩
    simp [generate_header_pair, magic_v1, magic_v2, version_v1, version_v2,
      Nat.add_comm 6 j]
  · simp [generate_header_pair, magic_v1, magic_v2, version_v1, version_v2]
  · intro i h1 h2
    interval_cases i <;>
      simp_all [generate_header_pair, magic_v1, magic_v2, version_v1, version_v2]
  · simp [generate_header_pair, magic_v1, version_v1]
  · simp [generate_header_pair, magic_v2, version_v2]

/-- Witness for C3 at a concrete random-source state, discharging the
bounded-offset hypotheses at offsets 6 and 0. -/
theorem header_mutation_spec_witness :
    (generate_header_pair ⟨fun _ => 0, 0⟩).1.1.getD 6 0 =
      (generate_header_pair ⟨fun _ => 0, 0⟩).1.2.getD 6 0 ∧
    (generate_header_pair ⟨fun _ => 0, 0⟩).1.1.getD 0 0 =
      (generate_header_pair ⟨fun _ => 0, 0⟩).1.2.getD 0 0 :=
  ⟨(header_mutation_spec ⟨fun _ => 0, 0⟩).2.2.1 6 (by omega),
   (header_mutation_spec ⟨fun _ => 0, 0⟩).2.2.2.2.1 0 (by omega) (by omega)⟩

/-- C1: the whole run is a deterministic function of the raw draw stream,
which the fixed seed determines; hence two runs from the same seed produce
identical byte content for every one of the ten output records. -/
theorem generateAll_deterministic (s1 s2 : Nat → Nat)
    (h : ∀ n, s1 n = s2 n) : generateAll s1 = generateAll s2 := by
  have hs : s1 = s2 := funext h
  rw [hs]

/-- Witness for C1 at a concrete stream. -/
theorem generateAll_deterministic_witness :
    generateAll (fun _ => 0) = generateAll (fun _ => 0) :=
  generateAll_deterministic (fun _ => 0) (fun _ => 0) (fun _ => rfl)

theorem textOriginal_length : textOriginal.length = 161 := by decide

/-- C6 counterexample: the run contains no record named "simple_v1";
every writer call receives a name carrying the ".bin" extension. -/
theorem catalog_names_counterexample :
    "simple_v1" ∉ (generateAll (fun _ => 0)).map Prod.fst := by
  decide

/-- C6 (amended): the run passes exactly ten records to the writer, whose
names are the catalog names of section 6 with a ".bin" extension and whose
byte counts are exactly 64, 64, 126, 126, 512, 512, 161, 161, 256, 256. -/
theorem catalog_spec (s : Nat → Nat) :
    (generateAll s).map (fun p => (p.1, p.2.length)) =
      [("simple_v1.bin", 64), ("simple_v2.bin", 64),
       ("header_original.bin", 126), ("header_modified.bin", 126),
       ("firmware_v1.bin", 512), ("firmware_v2.bin", 512),
       ("text_original.bin", 161), ("text_modified.bin", 161),
       ("identical_a.bin", 256), ("identical_b.bin", 256)] := by
  simp [generateAll, generate_simple_pair, generate_header_pair,
    generate_firmware_pair, generate_text_pair, generate_identical_pair,
    magic_v1, magic_v2, version_v1, version_v2,
    drawBytes_length, applyDeltas_length, textOriginal_length]

/-- Witness for C6 at a concrete stream. -/
theorem catalog_spec_witness :
    (generateAll (fun _ => 0)).map (fun p => (p.1, p.2.length)) =
      [("simple_v1.bin", 64), ("simple_v2.bin", 64),
       ("header_original.bin", 126), ("header_modified.bin", 126),
       ("firmware_v1.bin", 512), ("firmware_v2.bin", 512),
       ("text_original.bin", 161), ("text_modified.bin", 161),
       ("identical_a.bin", 256), ("identical_b.bin", 256)] :=
  catalog_spec (fun _ => 0)

theorem runWrites_firstFail : ∀ (ws : List (String × List Nat)) (ok : String → Bool)
    (j : Nat), j < ws.length →
    (∀ k, k < j → ok ((ws.getD k ("", [])).1) = true) →
    ok ((ws.getD j ("", [])).1) = false →
    runWrites ok ws = (ws.take j, some ((ws.getD j ("", [])).1)) := by
  intro ws
  induction ws with
  | nil => intro ok j hj _ _; simp at hj
  | cons w rest ih =>
    intro ok j hj hpre hfail
    cases j with
    | zero =>
      simp only [List.getD_cons_zero] at hfail ⊢
      simp [runWrites, hfail]
    | succ j =>
      have hw : ok w.1 = true := by simpa using hpre 0 (by omega)
      simp only [List.getD_cons_succ] at hfail ⊢
      simp only [runWrites, hw, if_true]
      rw [ih ok j (by simpa using hj)
        (fun k hk => by simpa using hpre (k + 1) (by omega)) hfail]
      simp

/-- C8: if the j-th write of the run is the first to fail, the run stops
there: the files on disk are exactly the first j records, each with its
full content, the diagnostic names the failing file, and no record after
position j is written. -/
theorem write_failure_abort (s : Nat → Nat) (ok : String → Bool) (j : Nat)
    (hj : j < (generateAll s).length)
    (hpre : ∀ k, k < j → ok (((generateAll s).getD k ("", [])).1) = true)
    (hfail : ok (((generateAll s).getD j ("", [])).1) = false) :
    runWrites ok (generateAll s) =
      ((generateAll s).take j, some (((generateAll s).getD j ("", [])).1)) :=
  runWrites_firstFail (generateAll s) ok j hj hpre hfail

/-- Witness for C8: a filesystem rejecting the header_original file stops
the run after the two simple-scatter files, naming the failing file. -/
theorem write_failure_abort_witness :
    runWrites (fun n => n != "header_original.bin") (generateAll (fun _ => 0)) =
      ((generateAll (fun _ => 0)).take 2,
        some (((generateAll (fun _ => 0)).getD 2 ("", [])).1)) :=
  write_failure_abort (fun _ => 0) (fun n => n != "header_original.bin") 2
    (by decide) (by decide) (by decide)

end DeadRinger
